import Mathlib

/-!
Verification of the `logchange` repository's cache and rate limiter
(`scripts/cache_utils.py`), its AI summarizer (`src/logchange/ai_summarizer.py`)
and the changelog loop in `src/logchange/cli.py`.

The Python code is shallowly embedded:
* the on-disk cache directory becomes an association list from file-name stem
  (the cache key) to file content;
* the content a file may have after `json.load` is modelled by `JDoc` / `JVal`:
  a file is either not valid JSON (`json.JSONDecodeError`), or parses to a
  non-dict JSON value (subscripting it with a string raises `TypeError`), or
  parses to a dict of fields whose values are numbers, strings, or other JSON
  values (arithmetic on a non-number raises `TypeError`);
* `time.time()` becomes an explicit integer parameter threaded through calls;
* uncaught Python exceptions become the `Except PyErr` monadic result, while
  exceptions the source catches are handled exactly where the source catches
  them;
* `hashlib.sha256(...).hexdigest()` is an arbitrary deterministic function
  `hash : String → String` applied to the colon-joined key string, kept as a
  parameter: no property below depends on anything about SHA-256 beyond its
  determinism, so every theorem quantifies over `hash`.
-/

/-- Uncaught Python exception kinds relevant to this code:
`TypeError` (subscripting a non-dict with a string key, or arithmetic between
a float and a non-number) and `ValueError` (`min` of an empty sequence). -/
inductive PyErr where
  | typeError
  | valueError
deriving DecidableEq, Repr

/-- A JSON value sitting in a field of a parsed cache record.
`jnum` carries the numeric timestamps (modelled as integers), `jstr` the text
payloads; `jother` stands for any other JSON value (list, dict, bool, null),
which is not a number, so using it as the right operand of `-` raises
`TypeError`. -/
inductive JVal where
  | jnum (n : Int)
  | jstr (s : String)
  | jother
deriving DecidableEq, Repr

/-- The result of `json.load` on a cache file that is valid JSON:
either a JSON dict with the given fields, or some non-dict JSON value
(number, list, string, ...), for which `data["timestamp"]` raises
`TypeError`. -/
inductive JDoc where
  | jdict (fields : List (String × JVal))
  | jnondict
deriving DecidableEq, Repr

/-- What a cache file can hold: bytes that fail `json.load`
(`json.JSONDecodeError`), or a parsed JSON document. -/
inductive FileContent where
  | malformed
  | doc (d : JDoc)
deriving DecidableEq, Repr

/-- `data[name]` on a parsed JSON dict: `some v` when the field is present
(first occurrence), `none` when absent (Python raises `KeyError`, which the
source catches). -/
def findField : List (String × JVal) → String → Option JVal
  | [], _ => none
  | (k, v) :: rest, name => if k = name then some v else findField rest name

/-- The cache directory: one file per entry, keyed by the file-name stem
(the hex digest).  Order is the order `glob` enumerates the files in. -/
abbrev Store := List (String × FileContent)

/-- `cache_path.exists()` / `cache_path.open("r")`: content of the file named
by the key, if present. -/
def Store.lookupKey : Store → String → Option FileContent
  | [], _ => none
  | (k, v) :: rest, key => if k = key then some v else Store.lookupKey rest key

/-- `cache_path.unlink()`: remove the file named by the key. -/
def Store.eraseKey : Store → String → Store
  | [], _ => []
  | (k, v) :: rest, key =>
      if k = key then Store.eraseKey rest key
      else (k, v) :: Store.eraseKey rest key

/-- `cache_path.open("w")` + write: create or truncate the file named by the
key and store the given content. -/
def Store.writeKey (s : Store) (key : String) (v : FileContent) : Store :=
  (key, v) :: s.eraseKey key

/-- `APICache._get_cache_key` (cache_utils.py lines 36–39):
`key_str = f"{content}:{model}:{style}"` followed by
`hashlib.sha256(key_str.encode()).hexdigest()`.  The SHA-256 hex digest is a
deterministic function of the key string; it is the `hash` parameter here. -/
def getCacheKey (hash : String → String) (content model style : String) : String :=
  hash (content ++ ":" ++ model ++ ":" ++ style)

/-- `APICache.get` (cache_utils.py lines 45–72).  `ttl` is `self.ttl_seconds`,
`now` the value of `time.time()`, `store` the cache directory.  Returns the
optional cached response together with the directory afterwards, or the
uncaught `TypeError` raised when the record parses to JSON but its
`timestamp` is not a number (only `json.JSONDecodeError`, `KeyError` and
`OSError` are caught by the source). -/
def APICache.get (hash : String → String) (ttl : Int) (store : Store) (now : Int)
    (content model style : String) : Except PyErr (Option JVal × Store) :=
  let key := getCacheKey hash content model style
  match store.lookupKey key with
  | none => .ok (none, store)
  | some .malformed => .ok (none, store.eraseKey key)
  | some (.doc .jnondict) => .error .typeError
  | some (.doc (.jdict fields)) =>
      match findField fields "timestamp" with
      | none => .ok (none, store.eraseKey key)
      | some (.jnum ts) =>
          if now - ts > ttl then
            .ok (none, store.eraseKey key)
          else
            match findField fields "response" with
            | none => .ok (none, store.eraseKey key)
            | some v => .ok (some v, store)
      | some _ => .error .typeError

/-- `APICache.set` (cache_utils.py lines 74–88): write the record
`{"timestamp": now, "response": response, "model": model}` to the file named
by the key. -/
def APICache.set (hash : String → String) (store : Store) (now : Int)
    (content model response style : String) : Store :=
  store.writeKey (getCacheKey hash content model style)
    (.doc (.jdict [("timestamp", .jnum now), ("response", .jstr response),
                   ("model", .jstr model)]))

/-- `APICache.clear` (cache_utils.py lines 90–104): unlink every file the glob
yields, counting; returns the count and the directory afterwards. -/
def APICache.clear : Store → Nat × Store
  | [] => (0, [])
  | _ :: rest =>
      let r := APICache.clear rest
      (r.1 + 1, r.2)

/-- The body of the `clear_expired` loop for one file (cache_utils.py lines
117–127): `.ok true` when the file is unlinked and counted, `.ok false` when
it is kept, `.error` when the iteration raises an uncaught `TypeError`
(record parses to JSON but `current_time - data["timestamp"]` is not defined
on a non-number, or the document is not a dict). -/
def clearExpiredStep (ttl now : Int) : FileContent → Except PyErr Bool
  | .malformed => .ok true
  | .doc .jnondict => .error .typeError
  | .doc (.jdict fields) =>
      match findField fields "timestamp" with
      | none => .ok true
      | some (.jnum ts) => .ok (now - ts > ttl)
      | some _ => .error .typeError

/-- `APICache.clear_expired` (cache_utils.py lines 106–129): iterate the glob,
deleting expired and unparsable files and counting them; an uncaught
`TypeError` aborts the loop and propagates. -/
def APICache.clearExpired (ttl now : Int) : Store → Except PyErr (Nat × Store)
  | [] => .ok (0, [])
  | (k, fc) :: rest =>
      match clearExpiredStep ttl now fc with
      | .error e => .error e
      | .ok del =>
          match APICache.clearExpired ttl now rest with
          | .error e => .error e
          | .ok (c, s) => if del then .ok (c + 1, s) else .ok (c, (k, fc) :: s)

example :
    APICache.get id 100 (APICache.set id [] 5 "c" "m" "resp" "s") 50 "c" "m" "s"
      = .ok (some (.jstr "resp"), [("c:m:s",
          .doc (.jdict [("timestamp", .jnum 5), ("response", .jstr "resp"),
                        ("model", .jstr "m")]))]) := by
  rfl

example :
    APICache.get id 100 [("c:m:s", .doc (.jdict [("timestamp", .jstr "bad")]))] 50
      "c" "m" "s" = .error .typeError := by
  rfl

example :
    APICache.clearExpired 10 100
      [("a", .doc (.jdict [("timestamp", .jnum 0)])),
       ("b", .malformed),
       ("c", .doc (.jdict [("timestamp", .jnum 95)]))]
      = .ok (2, [("c", .doc (.jdict [("timestamp", .jnum 95)]))]) := by
  rfl

/-- `min` of a Python list: `none` on the empty list (Python raises
`ValueError`). -/
def listMin : List Int → Option Int
  | [] => none
  | x :: xs =>
      match listMin xs with
      | none => some x
      | some m => some (min x m)

/-- `RateLimiter.wait_if_needed` (cache_utils.py lines 145–162), acting on the
`self.calls` list at `current_time = time.time()`.  Returns the `calls` list
after the method returns together with the duration slept (`0` when no wait
happened), or the uncaught `ValueError` that `min(self.calls)` raises on an
empty list (reached exactly when `max_calls = 0` and no call is tracked).
After `time.sleep(wait_time)` the source sets `self.calls = []` and then
appends the stale `current_time` read before the sleep. -/
def waitIfNeeded (maxCalls : Nat) (calls : List Int) (currentTime : Int) :
    Except PyErr (List Int × Int) :=
  let calls1 := calls.filter (fun t => currentTime - t < 60)
  if maxCalls ≤ calls1.length then
    match listMin calls1 with
    | none => .error .valueError
    | some oldest =>
        let waitTime := 60 - (currentTime - oldest)
        if 0 < waitTime then .ok ([currentTime], waitTime)
        else .ok (calls1 ++ [currentTime], 0)
  else .ok (calls1 ++ [currentTime], 0)

/-- Number of tracked calls that fall within the trailing 60-second window at
time `now`. -/
def countWindow (calls : List Int) (now : Int) : Nat :=
  (calls.filter (fun t => now - t < 60)).length

/-- The `calls` lists reachable through the `RateLimiter` API: `__init__` sets
`calls = []`, and each successful `wait_if_needed` at some time replaces the
list with the one it leaves behind. -/
inductive RLReachable (maxCalls : Nat) : List Int → Prop
  | init : RLReachable maxCalls []
  | step {calls calls' : List Int} {t w : Int} :
      RLReachable maxCalls calls →
      waitIfNeeded maxCalls calls t = .ok (calls', w) →
      RLReachable maxCalls calls'

example : waitIfNeeded 0 [] 5 = .error .valueError := by rfl
example : waitIfNeeded 2 [] 5 = .ok ([5], 0) := by rfl
example : waitIfNeeded 2 [5, 5] 10 = .ok ([10], 55) := by rfl
example : waitIfNeeded 1 [0] 100 = .ok ([100], 0) := by rfl

/-- `summarize_commit` (ai_summarizer.py lines 41–53): the outcome of the
`openai.ChatCompletion.create` call and the subsequent extraction of
`response.choices[0].message["content"]`, abstracted as an `Except`: on
success the content string is stripped and returned, and any exception `e`
(network, auth, quota, ...) is logged and replaced by the sentinel
`"Summary unavailable."` — `except Exception` catches them all. -/
def summarizeCommit (providerResult : Except String String) : String :=
  match providerResult with
  | .ok content => content.trim
  | .error _ => "Summary unavailable."

/-- One commit of the changelog loop: the info dict from `get_commit_info`
(abstracted) together with the outcome the provider call would have for this
commit. -/
structure CommitCall where
  info : String
  providerResult : Except String String

/-- The changelog accumulation loop of `generate_changelog`
(cli.py lines 107–117): every commit contributes exactly one entry,
`(info, summarize_commit ...)`. -/
def generateChangelog (commits : List CommitCall) : List (String × String) :=
  commits.map (fun c => (c.info, summarizeCommit c.providerResult))

example : summarizeCommit (.error "RateLimitError") = "Summary unavailable." := by rfl
example : (generateChangelog
    [⟨"c1", .ok "fixed a bug"⟩, ⟨"c2", .error "APIError"⟩, ⟨"c3", .ok "x"⟩]).length = 3 ∧
    (generateChangelog [⟨"c2", .error "APIError"⟩]).map Prod.snd
      = ["Summary unavailable."] := by
  refine ⟨rfl, ?_⟩
  simp [generateChangelog, summarizeCommit]

/-- Outcome of one filesystem operation performed by the `.gitignore`
registration: either it succeeds with a value, or it raises `OSError`. -/
inductive FSResult (α : Type) where
  | ok (a : α)
  | oserror
deriving Repr

/-- The filesystem as seen by the `.gitignore` block of `APICache.__init__`:
whether `.gitignore` exists, what `read_text()` would return (or raise), and
whether the append / `write_text` call would succeed. -/
structure GitignoreFS where
  giExists : Bool
  readResult : FSResult String
  writeOk : Bool

/-- `.gitignore` content after the constructor (unchanged, appended, or
freshly created). -/
inductive GitignoreOutcome where
  | unchanged
  | appended (line : String)
  | created (text : String)
deriving Repr

/-- Python's `needle in haystack` substring test, on the character lists of
the two strings. -/
def isSubstringOf (needle : List Char) : List Char → Bool
  | [] => needle.isEmpty
  | c :: rest => needle.isPrefixOf (c :: rest) || isSubstringOf needle rest

/-- The kind of Python exception an `OSError` propagates as; distinguished
from the `TypeError` / `ValueError` of the other components. -/
inductive OSRaise where
  | osError
deriving DecidableEq, Repr

/-- The `.gitignore` registration in `APICache.__init__` (cache_utils.py
lines 26–34).  The block is not wrapped in any try/except, so an `OSError`
from `read_text`, the append, or `write_text` propagates out of the
constructor; `.error` models that propagation.  `cache_dir not in content`
is Python substring containment. -/
def initGitignore (cacheDir : String) (fs : GitignoreFS) :
    Except OSRaise GitignoreOutcome :=
  if fs.giExists then
    match fs.readResult with
    | .oserror => .error .osError
    | .ok content =>
        if isSubstringOf cacheDir.toList content.toList then .ok .unchanged
        else if fs.writeOk then .ok (.appended ("\n" ++ cacheDir ++ "/\n"))
        else .error .osError
  else
    if fs.writeOk then .ok (.created (cacheDir ++ "/\n"))
    else .error .osError

theorem lookupKey_writeKey_self (s : Store) (k : String) (v : FileContent) :
    (s.writeKey k v).lookupKey k = some v := by
  simp [Store.writeKey, Store.lookupKey]

theorem get_set_key (hash : String → String) (ttl : Int) (store : Store)
    (tset tget : Int) (c1 m1 s1 c2 m2 s2 r : String)
    (hkey : getCacheKey hash c2 m2 s2 = getCacheKey hash c1 m1 s1)
    (hage : tget - tset ≤ ttl) :
    APICache.get hash ttl (APICache.set hash store tset c1 m1 r s1) tget c2 m2 s2
      = .ok (some (.jstr r), APICache.set hash store tset c1 m1 r s1) := by
  have hlook : (APICache.set hash store tset c1 m1 r s1).lookupKey
      (getCacheKey hash c2 m2 s2)
      = some (.doc (.jdict [("timestamp", .jnum tset), ("response", .jstr r),
                            ("model", .jstr m1)])) := by
    rw [hkey]
    exact lookupKey_writeKey_self ..
  have hnot : ¬ tget - tset > ttl := by omega
  simp [APICache.get, hlook, findField, hnot]

/-- C1: for every `(content, model, style)` triple and every response,
`get` immediately after a successful `set` with the same triple returns that
same response, provided the entry's age `tget - tset` is within
`ttl_seconds`. -/
theorem cache_get_after_set (hash : String → String) (ttl : Int) (store : Store)
    (tset tget : Int) (content model style response : String)
    (hage : tget - tset ≤ ttl) :
    APICache.get hash ttl
        (APICache.set hash store tset content model response style)
        tget content model style
      = .ok (some (.jstr response),
             APICache.set hash store tset content model response style) :=
  get_set_key hash ttl store tset tget content model style content model style
    response rfl hage

/-- C1 witness: a concrete round trip through `set` then `get`. -/
theorem cache_get_after_set_witness :
    APICache.get id 86400 (APICache.set id [] 5 "diff-a" "model-x" "resp-1" "")
        5 "diff-a" "model-x" ""
      = .ok (some (.jstr "resp-1"),
             APICache.set id [] 5 "diff-a" "model-x" "resp-1" "") :=
  cache_get_after_set id 86400 [] 5 5 "diff-a" "model-x" "" "resp-1" (by decide)

/-- C4: for every cached entry holding a record whose numeric timestamp `ts`
satisfies `now - ts > ttl_seconds`, `get` for that entry's triple returns
absent and the entry's file is removed from storage. -/
theorem cache_get_expired (hash : String → String) (ttl : Int) (store : Store)
    (now ts : Int) (content model style : String) (fields : List (String × JVal))
    (hlook : store.lookupKey (getCacheKey hash content model style)
      = some (.doc (.jdict fields)))
    (hts : findField fields "timestamp" = some (.jnum ts))
    (hexp : now - ts > ttl) :
    APICache.get hash ttl store now content model style
      = .ok (none, store.eraseKey (getCacheKey hash content model style)) := by
  simp [APICache.get, hlook, hts, hexp]

/-- C4 witness: a concrete entry aged past the TTL is reported absent and
its file disappears from the store. -/
theorem cache_get_expired_witness :
    APICache.get id 10
        [("d:m:", .doc (.jdict [("timestamp", .jnum 0), ("response", .jstr "r"),
                                ("model", .jstr "m")]))]
        100 "d" "m" ""
      = .ok (none, Store.eraseKey
          [("d:m:", .doc (.jdict [("timestamp", .jnum 0), ("response", .jstr "r"),
                                  ("model", .jstr "m")]))] "d:m:") :=
  cache_get_expired id 10
    [("d:m:", .doc (.jdict [("timestamp", .jnum 0), ("response", .jstr "r"),
                            ("model", .jstr "m")]))]
    100 0 "d" "m" ""
    [("timestamp", .jnum 0), ("response", .jstr "r"), ("model", .jstr "m")]
    (by rfl) (by rfl) (by decide)

/-- C3 counterexample: a stored record that is valid JSON but carries a
non-numeric `timestamp` (an invalid structured payload) makes `get` raise an
uncaught `TypeError` — `time.time() - data["timestamp"]` fails and only
`json.JSONDecodeError`, `KeyError` and `OSError` are caught — instead of
treating the record as absent. -/
theorem cache_get_corrupt_raises :
    APICache.get id 86400
        [("a:m:", .doc (.jdict [("timestamp", .jstr "oops"),
                                ("response", .jstr "r")]))]
        0 "a" "m" ""
      = .error .typeError := by
  rfl

/-- C3 amended: for every stored record that fails JSON parsing, lacks the
`timestamp` key, or is fresh but lacks the `response` key, `get` raises no
error: it returns absent and the record's file is deleted from storage.
(Records that parse to JSON but are not a dict, or whose `timestamp` is not
a number, instead raise an uncaught `TypeError`.) -/
theorem cache_get_unparsable_absent (hash : String → String) (ttl : Int)
    (store : Store) (now : Int) (content model style : String)
    (hbad : store.lookupKey (getCacheKey hash content model style)
              = some .malformed ∨
            (∃ fields, store.lookupKey (getCacheKey hash content model style)
              = some (.doc (.jdict fields)) ∧ findField fields "timestamp" = none) ∨
            (∃ fields ts, store.lookupKey (getCacheKey hash content model style)
              = some (.doc (.jdict fields)) ∧
              findField fields "timestamp" = some (.jnum ts) ∧
              ¬ now - ts > ttl ∧ findField fields "response" = none)) :
    APICache.get hash ttl store now content model style
      = .ok (none, store.eraseKey (getCacheKey hash content model style)) := by
  rcases hbad with hlook | ⟨fields, hlook, hts⟩ | ⟨fields, ts, hlook, hts, hfresh, hresp⟩
  · simp [APICache.get, hlook]
  · simp [APICache.get, hlook, hts]
  · simp [APICache.get, hlook, hts, hfresh, hresp]

/-- C3 amended witness: a record that fails JSON parsing is reported absent
and deleted. -/
theorem cache_get_unparsable_absent_witness :
    APICache.get id 86400 [("a:m:", .malformed)] 0 "a" "m" ""
      = .ok (none, Store.eraseKey [("a:m:", .malformed)] "a:m:") :=
  cache_get_unparsable_absent id 86400 [("a:m:", .malformed)] 0 "a" "m" ""
    (Or.inl (by rfl))

/-- C8: the triples `("a", "b:c", "d")` and `("a:b", "c", "d")` are distinct
yet derive the identical cache key — the key hashes the plain colon-joined
string `content:model:style`, and both triples join to `"a:b:c:d"` — so after
`set` under the first triple, `get` under the second returns the first
triple's stored response. -/
theorem cache_key_collision (hash : String → String) (ttl : Int) (store : Store)
    (now : Int) (r : String) (httl : 0 ≤ ttl) :
    (("a", "b:c", "d") : String × String × String) ≠ ("a:b", "c", "d") ∧
    getCacheKey hash "a" "b:c" "d" = getCacheKey hash "a:b" "c" "d" ∧
    APICache.get hash ttl (APICache.set hash store now "a" "b:c" r "d")
        now "a:b" "c" "d"
      = .ok (some (.jstr r), APICache.set hash store now "a" "b:c" r "d") := by
  refine ⟨by decide, ?_, ?_⟩
  · show hash ("a" ++ ":" ++ "b:c" ++ ":" ++ "d")
      = hash ("a:b" ++ ":" ++ "c" ++ ":" ++ "d")
    rfl
  · exact get_set_key hash ttl store now now "a" "b:c" "d" "a:b" "c" "d" r
      (by rfl) (by omega)

/-- C8 witness: the collision at a concrete cache. -/
theorem cache_key_collision_witness :
    (("a", "b:c", "d") : String × String × String) ≠ ("a:b", "c", "d") ∧
    getCacheKey id "a" "b:c" "d" = getCacheKey id "a:b" "c" "d" ∧
    APICache.get id 86400 (APICache.set id [] 0 "a" "b:c" "resp" "d")
        0 "a:b" "c" "d"
      = .ok (some (.jstr "resp"), APICache.set id [] 0 "a" "b:c" "resp" "d") :=
  cache_key_collision id 86400 [] 0 "resp" (by decide)

/-- A cache file that `clear_expired` keeps: a parsed JSON dict whose
`timestamp` field is a number within the TTL. -/
def freshEntry (ttl now : Int) : FileContent → Bool
  | .doc (.jdict fields) =>
      match findField fields "timestamp" with
      | some (.jnum ts) => decide (now - ts ≤ ttl)
      | _ => false
  | _ => false

theorem clearExpiredStep_ok_fresh (ttl now : Int) (fc : FileContent) (b : Bool)
    (h : clearExpiredStep ttl now fc = .ok b) :
    freshEntry ttl now fc = !b := by
  cases fc with
  | malformed =>
      simp [clearExpiredStep] at h
      simp [freshEntry, ← h]
  | doc d =>
      cases d with
      | jnondict => simp [clearExpiredStep] at h
      | jdict fields =>
          cases hts : findField fields "timestamp" with
          | none =>
              simp [clearExpiredStep, hts] at h
              simp [freshEntry, hts, ← h]
          | some v =>
              cases v with
              | jnum ts =>
                  simp [clearExpiredStep, hts] at h
                  simp [freshEntry, hts, ← h]
                  cases b with
                  | true => simp_all; omega
                  | false => simp_all
              | jstr s => simp [clearExpiredStep, hts] at h
              | jother => simp [clearExpiredStep, hts] at h

theorem clear_eq_length (store : Store) :
    APICache.clear store = (store.length, []) := by
  induction store with
  | nil => rfl
  | cons p rest ih => simp [APICache.clear, ih]

/-- C5 counterexample: on a store holding one record that is valid JSON but
has a non-numeric `timestamp`, `clear_expired` raises an uncaught `TypeError`
(only `json.JSONDecodeError`, `KeyError` and `OSError` are caught) instead of
returning a count, so it neither deletes exactly the expired-plus-unparsable
entries nor returns a number. -/
theorem clearExpired_corrupt_raises :
    APICache.clearExpired 86400 0
        [("k", .doc (.jdict [("timestamp", .jstr "x")]))]
      = .error .typeError := by
  rfl

/-- C5 amended: `clear` deletes every cache entry regardless of age and
returns exactly the number deleted.  On every store in which no entry parses
to JSON with a non-numeric timestamp or to a non-dict (each entry is
unparsable, lacks the `timestamp` key, or carries a numeric timestamp),
`clear_expired` deletes exactly the entries whose age exceeds `ttl_seconds`
plus the unparsable / key-less ones, leaves every fresh parsable entry in
place, and returns exactly the number deleted. -/
theorem cache_clear_and_clearExpired (ttl now : Int) (store : Store)
    (hgood : ∀ p ∈ store, (clearExpiredStep ttl now p.2).isOk = true) :
    APICache.clear store = (store.length, []) ∧
    APICache.clearExpired ttl now store
      = .ok (store.length
               - (store.filter (fun p => freshEntry ttl now p.2)).length,
             store.filter (fun p => freshEntry ttl now p.2)) := by
  refine ⟨clear_eq_length store, ?_⟩
  induction store with
  | nil => rfl
  | cons p rest ih =>
      obtain ⟨k, fc⟩ := p
      have hstep : (clearExpiredStep ttl now fc).isOk = true :=
        hgood (k, fc) (by simp)
      have hrest := ih (fun q hq => hgood q (by simp [hq]))
      cases hok : clearExpiredStep ttl now fc with
      | error e =>
          rw [hok] at hstep
          simp [Except.isOk, Except.toBool] at hstep
      | ok b =>
          have hfresh := clearExpiredStep_ok_fresh ttl now fc b hok
          have hle := List.length_filter_le
            (fun p => freshEntry ttl now p.2) rest
          cases b with
          | true =>
              simp [APICache.clearExpired, hok, hrest, List.filter, hfresh]
              omega
          | false =>
              simp [APICache.clearExpired, hok, hrest, List.filter, hfresh]

/-- C5 witness: a concrete store with one fresh record, one malformed file
and one expired record; `clear` deletes all three, `clear_expired` deletes
the two bad ones and keeps the fresh one. -/
theorem cache_clear_and_clearExpired_witness :
    APICache.clear
        [("a", .doc (.jdict [("timestamp", .jnum 0)])),
         ("b", .malformed),
         ("c", .doc (.jdict [("timestamp", .jnum 95)]))]
      = (3, []) ∧
    APICache.clearExpired 10 100
        [("a", .doc (.jdict [("timestamp", .jnum 0)])),
         ("b", .malformed),
         ("c", .doc (.jdict [("timestamp", .jnum 95)]))]
      = .ok (3 - (List.filter
                (fun p => freshEntry 10 100 p.2)
                [("a", .doc (.jdict [("timestamp", .jnum 0)])),
                 ("b", .malformed),
                 ("c", .doc (.jdict [("timestamp", .jnum 95)]))]).length,
             List.filter (fun p => freshEntry 10 100 p.2)
               [("a", .doc (.jdict [("timestamp", .jnum 0)])),
                ("b", .malformed),
                ("c", .doc (.jdict [("timestamp", .jnum 95)]))]) := by
  have h := cache_clear_and_clearExpired 10 100
    [("a", .doc (.jdict [("timestamp", .jnum 0)])),
     ("b", .malformed),
     ("c", .doc (.jdict [("timestamp", .jnum 95)]))]
    (by decide)
  simpa using h

theorem listMin_mem (l : List Int) (m : Int) (h : listMin l = some m) : m ∈ l := by
  induction l generalizing m with
  | nil => simp [listMin] at h
  | cons x xs ih =>
      cases hxs : listMin xs with
      | none =>
          simp [listMin, hxs] at h
          simp [h]
      | some m' =>
          simp [listMin, hxs] at h
          rcases le_total x m' with hle | hle
          · rw [min_eq_left hle] at h
            simp [h]
          · rw [min_eq_right hle] at h
            exact List.mem_cons_of_mem x (ih m (by rw [hxs, h]))

theorem listMin_replicate (n : Nat) (a : Int) (hn : 1 ≤ n) :
    listMin (List.replicate n a) = some a := by
  induction n with
  | zero => omega
  | succ k ih =>
      cases k with
      | zero => rfl
      | succ j =>
          rw [List.replicate_succ, listMin, ih (by omega)]
          simp

/-- With `max_calls = 0` and an empty history the filtered list is empty, so
the reset branch is taken and `min([])` raises; hence under `max_calls = 0`
the only reachable history is the initial empty one. -/
theorem rlReachable_zero (calls : List Int) (h : RLReachable 0 calls) :
    calls = [] := by
  induction h with
  | init => rfl
  | step hr hcall ih =>
      subst ih
      simp [waitIfNeeded, listMin] at hcall

/-- C2: immediately after every successful return of `wait_if_needed` — which
records the current call — the number of timestamps `t` in the `calls` list
with `now - t < 60` is at most `max_calls`, where `now = currentTime + w` is
the clock at return (`w` the duration slept; a call that would exceed the
ceiling is delayed by that `w` until the window admits it).  The history
`calls` is any one reachable through the `RateLimiter` API. -/
theorem rateLimiter_window_invariant (maxCalls : Nat) (calls calls' : List Int)
    (t w : Int) (hreach : RLReachable maxCalls calls)
    (hcall : waitIfNeeded maxCalls calls t = .ok (calls', w)) :
    countWindow calls' (t + w) ≤ maxCalls := by
  by_cases hfull : maxCalls ≤ (calls.filter (fun u => t - u < 60)).length
  · cases hmin : listMin (calls.filter (fun u => t - u < 60)) with
    | none =>
        simp [waitIfNeeded, hfull, hmin] at hcall
    | some oldest =>
        have hmem := listMin_mem _ _ hmin
        have hlt : t - oldest < 60 := by
          have := List.of_mem_filter hmem
          simpa using this
        have hpos : 0 < 60 - (t - oldest) := by omega
        simp [waitIfNeeded, hfull, hmin, hpos] at hcall
        obtain ⟨h1, h2⟩ := hcall
        subst h1
        have hone : maxCalls ≠ 0 := by
          intro h0
          subst h0
          have := rlReachable_zero calls hreach
          subst this
          simp at hmem
        have : countWindow [t] (t + w) ≤ 1 := by
          simp [countWindow, List.filter]
          split <;> simp
        omega
  · simp [waitIfNeeded, hfull] at hcall
    obtain ⟨h1, h2⟩ := hcall
    subst h1
    calc countWindow (calls.filter (fun u => t - u < 60) ++ [t]) (t + w)
        ≤ (calls.filter (fun u => t - u < 60) ++ [t]).length :=
          List.length_filter_le _ _
      _ = (calls.filter (fun u => t - u < 60)).length + 1 := by simp
      _ ≤ maxCalls := by omega

/-- C2 witness: one call on a fresh limiter with ceiling 1. -/
theorem rateLimiter_window_invariant_witness : countWindow [0] (0 + 0) ≤ 1 :=
  rateLimiter_window_invariant 1 [] [0] 0 0 RLReachable.init rfl

/-- C6: for a limiter configured with `max_calls = N ≥ 1`, the first `N`
calls to `wait_if_needed` issued at the same instant `t0` each complete
without any wait (the tracked history growing to `N` copies of `t0`), and
the `(N+1)`-th call, issued at `t1` within the same 60-second window,
triggers a wait of the strictly positive duration
`60 - (t1 - oldest remaining call)` and resets the history. -/
theorem rateLimiter_first_n_free_then_wait (N : Nat) (t0 t1 : Int)
    (hN : 1 ≤ N) (h0 : 0 ≤ t1 - t0) (h60 : t1 - t0 < 60) :
    (∀ k, k < N →
      waitIfNeeded N (List.replicate k t0) t0
        = .ok (List.replicate (k + 1) t0, 0)) ∧
    waitIfNeeded N (List.replicate N t0) t1 = .ok ([t1], 60 - (t1 - t0)) ∧
    0 < 60 - (t1 - t0) := by
  have hfilt0 : ∀ k, (List.replicate k t0).filter (fun u => t0 - u < 60)
      = List.replicate k t0 := by
    intro k
    rw [List.filter_eq_self]
    intro a ha
    rw [List.eq_of_mem_replicate ha]
    simp
  have hfilt1 : (List.replicate N t0).filter (fun u => t1 - u < 60)
      = List.replicate N t0 := by
    rw [List.filter_eq_self]
    intro a ha
    rw [List.eq_of_mem_replicate ha]
    simpa using h60
  refine ⟨?_, ?_, by omega⟩
  · intro k hk
    have hlen : ¬ N ≤ (List.replicate k t0).length := by simpa using hk
    simp [waitIfNeeded, hfilt0, hlen, List.replicate_succ']
    intro h
    exact absurd h (by omega)
  · have hlen : N ≤ (List.replicate N t0).length := by simp
    have hpos : 0 < 60 - (t1 - t0) := by omega
    simp [waitIfNeeded, hfilt1, hlen, listMin_replicate N t0 hN, hpos]

/-- C6 witness: ceiling 2, two instantaneous calls at `t0 = 0` run free, the
third call at `t1 = 10` waits 50 seconds. -/
theorem rateLimiter_first_n_free_then_wait_witness :
    (∀ k, k < 2 →
      waitIfNeeded 2 (List.replicate k 0) 0
        = .ok (List.replicate (k + 1) 0, 0)) ∧
    waitIfNeeded 2 (List.replicate 2 0) 10 = .ok ([10], 60 - (10 - 0)) ∧
    0 < 60 - ((10 : Int) - 0) :=
  rateLimiter_first_n_free_then_wait 2 0 10 (by decide) (by decide) (by decide)

/-- C7 counterexample: with `max_calls = 0` the very first call to
`wait_if_needed` reaches `min(self.calls)` with `self.calls == []`, and
`min` of an empty sequence raises `ValueError` — the component can fail, not
only delay. -/
theorem waitIfNeeded_zero_raises : waitIfNeeded 0 [] 0 = .error .valueError := by
  rfl

/-- C7 amended: for every configured `max_calls ≥ 1` and every prior call
history and clock value, `wait_if_needed` never raises an error: it returns
normally, at most delaying the caller.  (With `max_calls = 0` it instead
raises `ValueError` on first use.) -/
theorem waitIfNeeded_never_raises (maxCalls : Nat) (calls : List Int) (t : Int)
    (hN : 1 ≤ maxCalls) :
    (waitIfNeeded maxCalls calls t).isOk = true := by
  by_cases hfull : maxCalls ≤ (calls.filter (fun u => t - u < 60)).length
  · cases hmin : listMin (calls.filter (fun u => t - u < 60)) with
    | none =>
        exfalso
        have : calls.filter (fun u => t - u < 60) = [] := by
          cases hl : calls.filter (fun u => t - u < 60) with
          | nil => rfl
          | cons x xs =>
              rw [hl] at hmin
              cases hxs : listMin xs with
              | none => simp [listMin, hxs] at hmin
              | some m => simp [listMin, hxs] at hmin
        rw [this] at hfull
        simp at hfull
        omega
    | some oldest =>
        by_cases hpos : 0 < 60 - (t - oldest) <;>
          simp [waitIfNeeded, hfull, hmin, hpos, Except.isOk, Except.toBool]
  · simp [waitIfNeeded, hfull, Except.isOk, Except.toBool]

/-- C7 amended witness: a limiter with ceiling 1 and a saturated window
returns normally. -/
theorem waitIfNeeded_never_raises_witness :
    (waitIfNeeded 1 [3, 7] 10).isOk = true :=
  waitIfNeeded_never_raises 1 [3, 7] 10 (by decide)

/-- C9: for every commit, if the text-generation provider call raises any
error `e` (network, auth, quota), `summarize_commit` returns the sentinel
`"Summary unavailable."` instead of propagating the error; consequently, in
the changelog loop a failed commit in the middle of a batch still yields one
entry carrying the sentinel while every commit before and after it is
processed normally — one failure never halts generation for the rest. -/
theorem summarize_commit_error_sentinel (e info : String)
    (pre post : List CommitCall) :
    summarizeCommit (.error e) = "Summary unavailable." ∧
    generateChangelog (pre ++ ⟨info, .error e⟩ :: post)
      = generateChangelog pre
          ++ (info, "Summary unavailable.") :: generateChangelog post ∧
    (generateChangelog (pre ++ ⟨info, .error e⟩ :: post)).length
      = pre.length + 1 + post.length := by
  refine ⟨rfl, ?_, ?_⟩
  · simp [generateChangelog, summarizeCommit]
  · simp [generateChangelog]
    omega

/-- C10 counterexample: when `.gitignore` exists but `read_text()` raises
`OSError`, the registration block of `APICache.__init__` — which is not
wrapped in any try/except — propagates the error out of the constructor. -/
theorem initGitignore_read_failure_raises :
    initGitignore ".logchange_cache"
        ⟨true, .oserror, true⟩ = .error .osError := by
  rfl

/-- C10 amended: the ignore-list registration in the constructor is
unguarded, so it raises exactly when its filesystem I/O fails: reading an
existing `.gitignore` fails, appending to one that lacks the cache-dir line
fails, or creating a missing one fails.  No error propagates out of the
constructor precisely when none of these operations fail. -/
theorem initGitignore_error_iff (cacheDir : String) (fs : GitignoreFS) :
    initGitignore cacheDir fs = .error .osError ↔
      (fs.giExists = true ∧ fs.readResult = .oserror) ∨
      (fs.giExists = true ∧ fs.writeOk = false ∧
        ∃ content, fs.readResult = .ok content ∧
          isSubstringOf cacheDir.toList content.toList = false) ∨
      (fs.giExists = false ∧ fs.writeOk = false) := by
  obtain ⟨ex, rr, wo⟩ := fs
  cases ex with
  | false =>
      cases wo <;> simp [initGitignore]
  | true =>
      cases rr with
      | oserror => simp [initGitignore]
      | ok content =>
          cases hsub : isSubstringOf cacheDir.toList content.toList with
          | true =>
              simp only [String.toList] at hsub
              simp [initGitignore, hsub]
          | false =>
              simp only [String.toList] at hsub
              cases wo <;> simp [initGitignore, hsub]
